import Mathlib

/-!
Verification development for the NewsApp ML training pipeline
(`src/ml_training/train_model.py`).

Shallow embedding conventions: Python floats are modelled as rationals,
Python dicts as association lists in insertion order (first binding of a key
is the live one; `dictAdd` keeps keys unique), the pandas pivot table as an
explicit sorted-unique row/column derivation, `TruncatedSVD` as an abstract
function parameter (only the shapes and the clamped component count are
relevant to the properties below), and the external Firestore write as an
explicit `Except` outcome.  The wall-clock `version` / `createdAt` fields of
the artifact are omitted from the model.
-/

/-- Record fetched by `fetch_user_interactions`, with the field defaults of
lines 122-129 already applied. -/
structure InteractionEvent where
  user_id : String
  article_id : String
  click_count : ℕ
  time_spent : ℚ
  is_bookmarked : Bool
  category : String
deriving DecidableEq

/-- Record fetched by `fetch_bookmarks` (lines 170-176). -/
structure BookmarkEvent where
  user_id : String
  article_id : String
  category : String
deriving DecidableEq

/-- Record fetched by `fetch_user_preferences` (lines 147-153);
`category_scores` is a dict kept in insertion order. -/
structure PreferenceRecord where
  user_id : String
  category_scores : List (String × ℚ)
  total_interactions : ℤ
deriving DecidableEq

/-- Constant `MIN_USERS` (line 40). -/
def MIN_USERS : ℕ := 2

/-- Constant `MIN_INTERACTIONS` (line 41). -/
def MIN_INTERACTIONS : ℕ := 3

/-- Constant `N_COMPONENTS` (line 44). -/
def N_COMPONENTS : ℕ := 10

/-- Python dict update `m[k] = m.get(k, 0) + v`: the binding of `k` is
updated in place if present, otherwise appended at the end, matching the
insertion-order semantics of Python dicts. -/
def dictAdd {κ : Type} [DecidableEq κ] (k : κ) (v : ℚ) : List (κ × ℚ) → List (κ × ℚ)
  | [] => [(k, v)]
  | p :: ps => if p.1 = k then (p.1, p.2 + v) :: ps else p :: dictAdd k v ps

/-- Lookup `m.get(k, 0)`, summed over every binding of `k`; this equals the
dict lookup whenever keys are unique, which `dictAdd` maintains. -/
def getScore {κ : Type} [DecidableEq κ] (m : List (κ × ℚ)) (k : κ) : ℚ :=
  ((m.filter fun p => p.1 = k).map fun p => p.2).sum

/-- Per-interaction score of lines 198-202:
`click_count + (5 if is_bookmarked else 0) + time_spent / 30.0`. -/
def interactionScore (e : InteractionEvent) : ℚ :=
  (e.click_count : ℚ) + (if e.is_bookmarked then 5 else 0) + e.time_spent / 30

/-- The `scores` dict built by `build_interaction_matrix` lines 191-210:
every interaction adds its `interactionScore` to its (user, article) key,
then every bookmark adds a further 5 to its key. -/
def buildScores (interactions : List InteractionEvent) (bookmarks : List BookmarkEvent) :
    List ((String × String) × ℚ) :=
  bookmarks.foldl (fun m b => dictAdd (b.user_id, b.article_id) 5 m)
    (interactions.foldl (fun m e => dictAdd (e.user_id, e.article_id) (interactionScore e) m) [])

/-- Byte-wise comparison of char code points, the order pandas uses when it
sorts string labels. -/
def strLeAux : List Char → List Char → Bool
  | [], _ => true
  | _ :: _, [] => false
  | a :: as, b :: bs => if a.val < b.val then true else if b.val < a.val then false else strLeAux as bs

/-- Lexicographic order on strings (kernel-computable). -/
def strLe (a b : String) : Bool := strLeAux a.data b.data

/-- Insertion step of the sort used to model the sorted pivot-table axes. -/
def insertSorted (x : String) : List String → List String
  | [] => [x]
  | y :: ys => if strLe x y then x :: y :: ys else y :: insertSorted x ys

/-- Insertion sort on strings, modelling the sorted index/column labels of
`df.pivot_table` (line 223). -/
def sortStrings (l : List String) : List String := l.foldr insertSorted []

/-- Row labels of the pivot table: sorted distinct user ids of the score
keys. -/
def usersOf (s : List ((String × String) × ℚ)) : List String :=
  sortStrings ((s.map fun p => p.1.1).dedup)

/-- Column labels of the pivot table: sorted distinct article ids of the
score keys. -/
def articlesOf (s : List ((String × String) × ℚ)) : List String :=
  sortStrings ((s.map fun p => p.1.2).dedup)

/-- Dense pivot-table matrix (lines 223-228): cell (u, a) holds the score of
key (u, a), and `fill_value=0` puts an exact 0 in every unobserved cell. -/
def matrixOf (s : List ((String × String) × ℚ)) (us as_ : List String) : List (List ℚ) :=
  us.map fun u => as_.map fun a => getScore s (u, a)

/-- Function `build_interaction_matrix` (lines 186-232): returns `none` when
the merged score dict is empty (lines 212-214), otherwise the dense matrix
together with its row (user) and column (article) orderings. -/
def build_interaction_matrix (interactions : List InteractionEvent)
    (bookmarks : List BookmarkEvent) :
    Option (List (List ℚ) × List String × List String) :=
  let s := buildScores interactions bookmarks
  if s = [] then none
  else some (matrixOf s (usersOf s) (articlesOf s), usersOf s, articlesOf s)

/-- Rank clamp of `train_svd_model` lines 243-246:
`n_components = min(n_components, min(matrix.shape) - 1)`, then clamped up
to 1 when the result is below 1.  Integer arithmetic, as in Python. -/
def effectiveRank (requested users articles : ℕ) : ℤ :=
  let r : ℤ := min (requested : ℤ) (min (users : ℤ) (articles : ℤ) - 1)
  if r < 1 then 1 else r

/-- Python `max(values)` over a nonempty list (0 on the empty list, which the
code never reaches because it tests emptiness first). -/
def pyMax : List ℚ → ℚ
  | [] => 0
  | x :: xs => xs.foldl max x

/-- Raw category-weight accumulation of lines 290-293: for each preference
record, each category score is summed into a running per-category total. -/
def rawCategoryWeights (preferences : List PreferenceRecord) : List (String × ℚ) :=
  preferences.foldl (fun m p => p.category_scores.foldl (fun m2 cs => dictAdd cs.1 cs.2 m2) m) []

/-- Normalization of lines 296-299: when the dict is nonempty and its maximum
value is positive, every value is divided by that maximum; otherwise the dict
is left unchanged. -/
def normalizeWeights (m : List (String × ℚ)) : List (String × ℚ) :=
  if m = [] then m
  else
    let mx := pyMax (m.map fun p => p.2)
    if 0 < mx then m.map (fun p => (p.1, p.2 / mx)) else m

/-- Category weights emitted by `build_model_artifacts` (lines 289-304). -/
def buildCategoryWeights (preferences : List PreferenceRecord) : List (String × ℚ) :=
  normalizeWeights (rawCategoryWeights preferences)

/-- Model document assembled by `build_model_artifacts` (lines 307-320),
minus the wall-clock `version` / `createdAt` fields and the constant
`algorithmType` tag. -/
structure ModelDoc where
  nComponents : ℤ
  totalUsers : ℕ
  totalArticles : ℕ
  totalInteractions : ℕ
  categoryWeights : List (String × ℚ)
  userFactors : List (String × List ℚ)
  articleFactors : List (String × List ℚ)
deriving DecidableEq

/-- Function `build_model_artifacts` (lines 264-324): `totalInteractions` is
`sum(len(uf) for uf in user_factors)` and the factor lists pair
`user_ids[i]` with `user_factors[i]` (resp. articles) in order. -/
def build_model_artifacts (user_ids article_ids : List String)
    (user_factors article_factors : List (List ℚ)) (n_components : ℤ)
    (preferences : List PreferenceRecord) : ModelDoc :=
  ⟨n_components, user_ids.length, article_ids.length,
   (user_factors.map List.length).sum,
   buildCategoryWeights preferences,
   user_ids.zip user_factors,
   article_ids.zip article_factors⟩

/-- Function `upload_model_to_firestore` (lines 327-335): it performs the
external `doc_ref.set` call (modelled by its `Except` outcome) and then
returns `True` unconditionally. -/
def upload_model_to_firestore (setResult : Except Unit Unit) : Except Unit Bool :=
  setResult.map fun _ => true

/-- Abstract stand-in for `TruncatedSVD` (lines 248-252): from the dense
matrix and the clamped component count it produces the user-factor rows and
article-factor rows. -/
def SvdFun : Type := List (List ℚ) → ℤ → List (List ℚ) × List (List ℚ)

/-- Tail of `main` from line 371: matrix build, rank clamp, training,
artifact build and publish.  Returns the exit code and the published
document, if any; an exception from the external write is caught by the
top-level handler of lines 400-404, which returns 1. -/
def pipelinePostGate (svd : SvdFun) (setResult : Except Unit Unit)
    (interactions : List InteractionEvent) (bookmarks : List BookmarkEvent)
    (preferences : List PreferenceRecord) : ℕ × Option ModelDoc :=
  match build_interaction_matrix interactions bookmarks with
  | none => (1, none)
  | some (matrix, user_ids, article_ids) =>
    let n := effectiveRank N_COMPONENTS user_ids.length article_ids.length
    let fs := svd matrix n
    let doc := build_model_artifacts user_ids article_ids fs.1 fs.2 n preferences
    match upload_model_to_firestore setResult with
    | Except.error _ => (1, none)
    | Except.ok success => if success then (0, some doc) else (1, none)

/-- Function `main` (lines 342-404) after data fetching: the
minimum-requirements gate of lines 358-368 followed by the post-gate
pipeline. -/
def main_pipeline (svd : SvdFun) (setResult : Except Unit Unit)
    (interactions : List InteractionEvent) (bookmarks : List BookmarkEvent)
    (preferences : List PreferenceRecord) : ℕ × Option ModelDoc :=
  if (interactions.map fun e => e.user_id).dedup.length < MIN_USERS then (0, none)
  else if interactions.length < MIN_INTERACTIONS then (0, none)
  else pipelinePostGate svd setResult interactions bookmarks preferences

/-! ### Lemmas about the dict model -/

theorem getScore_nil {κ : Type} [DecidableEq κ] (k : κ) : getScore ([] : List (κ × ℚ)) k = 0 := rfl

theorem getScore_cons {κ : Type} [DecidableEq κ] (p : κ × ℚ) (m : List (κ × ℚ)) (k : κ) :
    getScore (p :: m) k = (if p.1 = k then p.2 else 0) + getScore m k := by
  by_cases h : p.1 = k <;> simp [getScore, List.filter_cons, h]

theorem getScore_dictAdd {κ : Type} [DecidableEq κ] (m : List (κ × ℚ)) (k k2 : κ) (v : ℚ) :
    getScore (dictAdd k v m) k2 = getScore m k2 + (if k2 = k then v else 0) := by
  induction m with
  | nil =>
    by_cases h : k2 = k
    · subst h
      simp [dictAdd, getScore_cons, getScore_nil]
    · simp [dictAdd, getScore_cons, getScore_nil, h]
      intro h2
      exact absurd h2.symm h
  | cons p ps ih =>
    by_cases h : p.1 = k
    · simp only [dictAdd, if_pos h, getScore_cons]
      by_cases h2 : p.1 = k2
      · have : k2 = k := h2 ▸ h
        simp [h2, this]
        ring
      · have : ¬ k2 = k := fun hk => h2 (hk ▸ h)
        simp [h2, this]
    · simp only [dictAdd, if_neg h, getScore_cons, ih]
      ring

theorem getScore_foldl {α : Type} {κ : Type} [DecidableEq κ] (key : α → κ) (val : α → ℚ)
    (l : List α) (m : List (κ × ℚ)) (k : κ) :
    getScore (l.foldl (fun acc e => dictAdd (key e) (val e) acc) m) k
      = getScore m k + ((l.filter fun e => key e = k).map val).sum := by
  induction l generalizing m with
  | nil => simp
  | cons e es ih =>
    simp only [List.foldl_cons, ih, getScore_dictAdd, List.filter_cons]
    by_cases h : key e = k
    · simp [h]
      ring
    · have : ¬ k = key e := fun hk => h hk.symm
      simp [h, this]

theorem getScore_eq_zero {κ : Type} [DecidableEq κ] (m : List (κ × ℚ)) (k : κ)
    (h : k ∉ m.map fun p => p.1) : getScore m k = 0 := by
  induction m with
  | nil => rfl
  | cons p ps ih =>
    simp only [List.map_cons, List.mem_cons, not_or] at h
    rw [getScore_cons, if_neg (fun hp => h.1 hp.symm), ih h.2, add_zero]

/-- C1: every interaction event with non-negative click_count and time_spent
and boolean is_bookmarked contributes `click_count + 5*is_bookmarked +
time_spent/30` to its (user, article) pair, every bookmark event adds a
further 5 to its pair, and the final score entry of a pair is the sum of all
these contributions (a bookmark event double-counts with an interaction whose
own bookmark flag is set). -/
theorem score_entry_eq_sum_of_contributions
    (interactions : List InteractionEvent) (bookmarks : List BookmarkEvent)
    (u a : String)
    (hts : ∀ e ∈ interactions, 0 ≤ e.time_spent) :
    getScore (buildScores interactions bookmarks) (u, a)
      = ((interactions.filter fun e => e.user_id = u ∧ e.article_id = a).map
           interactionScore).sum
        + 5 * ((bookmarks.filter fun b => b.user_id = u ∧ b.article_id = a).length : ℚ) := by
  unfold buildScores
  rw [getScore_foldl (fun b : BookmarkEvent => (b.user_id, b.article_id)) (fun _ => 5),
      getScore_foldl (fun e : InteractionEvent => (e.user_id, e.article_id)) interactionScore,
      getScore_nil, zero_add]
  have h1 : (interactions.filter fun e => (e.user_id, e.article_id) = (u, a))
      = interactions.filter fun e => e.user_id = u ∧ e.article_id = a :=
    List.filter_congr (by intro e _; simp [Prod.ext_iff])
  have h2 : (bookmarks.filter fun b => (b.user_id, b.article_id) = (u, a))
      = bookmarks.filter fun b => b.user_id = u ∧ b.article_id = a :=
    List.filter_congr (by intro b _; simp [Prod.ext_iff])
  rw [h1, h2]
  congr 1
  generalize (bookmarks.filter fun b => b.user_id = u ∧ b.article_id = a) = l
  induction l with
  | nil => simp
  | cons x xs ih =>
    simp only [List.map_cons, List.sum_cons, List.length_cons, ih]
    push_cast
    ring

/-- Interaction (u1, i1) of the end-to-end scenario: 2 clicks, no bookmark,
no reading time. -/
def evU1I1 : InteractionEvent := ⟨"u1", "a1", 2, 0, false, "news"⟩

/-- Interaction (u1, i2) of the end-to-end scenario: bookmarked, 60 seconds
of reading time. -/
def evU1I2 : InteractionEvent := ⟨"u1", "a2", 0, 60, true, "news"⟩

/-- Interaction (u2, i1) of the end-to-end scenario: 1 click, 30 seconds of
reading time. -/
def evU2I1 : InteractionEvent := ⟨"u2", "a1", 1, 30, false, "news"⟩

/-- Witness for C1 at the end-to-end scenario events. -/
theorem score_entry_eq_sum_of_contributions_witness :
    (∀ e ∈ [evU1I1, evU1I2, evU2I1], 0 ≤ e.time_spent) ∧
    getScore (buildScores [evU1I1, evU1I2, evU2I1] []) ("u1", "a2")
      = ((([evU1I1, evU1I2, evU2I1].filter
             fun e => e.user_id = "u1" ∧ e.article_id = "a2").map interactionScore).sum
        + 5 * ((([] : List BookmarkEvent).filter
             fun b => b.user_id = "u1" ∧ b.article_id = "a2").length : ℚ)) := by
  have hts : ∀ e ∈ [evU1I1, evU1I2, evU2I1], 0 ≤ e.time_spent := by
    intro e he
    fin_cases he <;> norm_num [evU1I1, evU1I2, evU2I1]
  exact ⟨hts, score_entry_eq_sum_of_contributions [evU1I1, evU1I2, evU2I1] [] "u1" "a2" hts⟩

/-- C2: the effective rank used by `train_svd_model` is
`min(requested_rank, min(num_users, num_items) - 1)`, clamped up to 1 when
that value is below 1; in particular a 3-user, 2-article matrix with
requested rank 10 gets effective rank 1. -/
theorem effective_rank_clamp :
    (∀ requested users articles : ℕ,
       (1 ≤ min (requested : ℤ) (min (users : ℤ) (articles : ℤ) - 1) →
          effectiveRank requested users articles
            = min (requested : ℤ) (min (users : ℤ) (articles : ℤ) - 1)) ∧
       (min (requested : ℤ) (min (users : ℤ) (articles : ℤ) - 1) < 1 →
          effectiveRank requested users articles = 1)) ∧
    effectiveRank N_COMPONENTS 3 2 = 1 := by
  constructor
  · intro requested users articles
    constructor <;> intro h <;> simp only [effectiveRank] <;> omega
  · decide

/-- Witness for C2: the clamp is exercised at requested rank 10 on a
3-user, 2-article matrix. -/
theorem effective_rank_clamp_witness :
    (1 : ℤ) ≤ min ((10 : ℕ) : ℤ) (min ((3 : ℕ) : ℤ) (((2 : ℕ) : ℤ)) - 1) ∧
    effectiveRank 10 3 2 = min ((10 : ℕ) : ℤ) (min ((3 : ℕ) : ℤ) (((2 : ℕ) : ℤ)) - 1) :=
  ⟨by decide, (effective_rank_clamp.1 10 3 2).1 (by decide)⟩

/-! ### Lemmas about the Python max of a list -/

theorem self_le_foldl_max (xs : List ℚ) (x : ℚ) : x ≤ xs.foldl max x := by
  induction xs generalizing x with
  | nil => exact le_refl x
  | cons y ys ih => exact le_trans (le_max_left x y) (ih (max x y))

theorem mem_le_foldl_max (xs : List ℚ) (x : ℚ) : ∀ y ∈ xs, y ≤ xs.foldl max x := by
  induction xs generalizing x with
  | nil => intro y h; cases h
  | cons z zs ih =>
    intro y h
    rcases List.mem_cons.mp h with h1 | h1
    · subst h1
      exact le_trans (le_max_right x y) (self_le_foldl_max zs (max x y))
    · exact ih (max x z) y h1

theorem foldl_max_mem (xs : List ℚ) (x : ℚ) : xs.foldl max x = x ∨ xs.foldl max x ∈ xs := by
  induction xs generalizing x with
  | nil => exact Or.inl rfl
  | cons y ys ih =>
    rcases ih (max x y) with h | h
    · rcases max_choice x y with h2 | h2
      · exact Or.inl (by rw [List.foldl_cons, h, h2])
      · refine Or.inr ?_
        rw [List.foldl_cons, h, h2]
        exact List.mem_cons_self y ys
    · exact Or.inr (List.mem_cons_of_mem y h)

theorem foldl_max_div (xs : List ℚ) (x m : ℚ) (hm : 0 < m) :
    (xs.map fun v => v / m).foldl max (x / m) = (xs.foldl max x) / m := by
  induction xs generalizing x with
  | nil => rfl
  | cons y ys ih =>
    simp only [List.map_cons, List.foldl_cons]
    rw [max_div_div_right (le_of_lt hm), ih]

theorem pyMax_mem (l : List ℚ) (h : l ≠ []) : pyMax l ∈ l := by
  cases l with
  | nil => exact absurd rfl h
  | cons x xs =>
    rcases foldl_max_mem xs x with h1 | h1
    · rw [pyMax, h1]; exact List.mem_cons_self x xs
    · rw [pyMax]
      exact List.mem_cons_of_mem x h1

theorem le_pyMax (l : List ℚ) (y : ℚ) (hy : y ∈ l) : y ≤ pyMax l := by
  cases l with
  | nil => cases hy
  | cons x xs =>
    rcases List.mem_cons.mp hy with h1 | h1
    · subst h1; exact self_le_foldl_max xs y
    · exact mem_le_foldl_max xs x y h1

theorem pyMax_map_div (l : List ℚ) (m : ℚ) (hl : l ≠ []) (hm : 0 < m) :
    pyMax (l.map fun v => v / m) = pyMax l / m := by
  cases l with
  | nil => exact absurd rfl hl
  | cons x xs =>
    simp only [List.map_cons, pyMax]
    exact foldl_max_div xs x m hm

/-- Preference record whose only category score is zero: the accumulated
category-weight map is nonempty but its maximum value is 0. -/
def prefZero : PreferenceRecord := ⟨"u1", [("A", 0)], 0⟩

/-- Counterexample for C3: with raw totals {A: 0} the accumulation map is
nonempty, yet the code skips the division (it requires `max_weight > 0`,
line 298), so no emitted weight equals 1.0. -/
theorem category_weights_max_zero_not_normalized :
    rawCategoryWeights [prefZero] ≠ [] ∧
    buildCategoryWeights [prefZero] = [("A", 0)] ∧
    ∀ p ∈ buildCategoryWeights [prefZero], p.2 ≠ 1 := by
  have hraw : rawCategoryWeights [prefZero] = [("A", 0)] := by
    simp [rawCategoryWeights, dictAdd, prefZero]
  have hw : buildCategoryWeights [prefZero] = [("A", 0)] := by
    rw [buildCategoryWeights, hraw]
    simp [normalizeWeights, pyMax]
  refine ⟨by rw [hraw]; simp, hw, ?_⟩
  rw [hw]
  intro p hp
  rw [List.mem_singleton] at hp
  subst hp
  norm_num

/-- C3 (amended): if the raw accumulation map is empty the emitted weight
list is empty; if it is nonempty AND its maximum value is positive, every
value is divided by that maximum and the maximum normalized weight is
exactly 1; when the maximum is 0 the map is left unchanged (all weights 0),
which is the case the original claim misses. -/
theorem category_weights_normalization (preferences : List PreferenceRecord) :
    (rawCategoryWeights preferences = [] → buildCategoryWeights preferences = []) ∧
    (rawCategoryWeights preferences ≠ [] →
       0 < pyMax ((rawCategoryWeights preferences).map fun p => p.2) →
       buildCategoryWeights preferences
           = (rawCategoryWeights preferences).map
               (fun p => (p.1, p.2 / pyMax ((rawCategoryWeights preferences).map fun q => q.2))) ∧
         pyMax ((buildCategoryWeights preferences).map fun p => p.2) = 1) := by
  constructor
  · intro h
    simp [buildCategoryWeights, h, normalizeWeights]
  · intro hne hpos
    have hmap : buildCategoryWeights preferences
        = (rawCategoryWeights preferences).map
            (fun p => (p.1, p.2 / pyMax ((rawCategoryWeights preferences).map fun q => q.2))) := by
      simp [buildCategoryWeights, normalizeWeights, hne, hpos]
    refine ⟨hmap, ?_⟩
    have hvals : (buildCategoryWeights preferences).map (fun p => p.2)
        = ((rawCategoryWeights preferences).map fun q => q.2).map
            (fun v => v / pyMax ((rawCategoryWeights preferences).map fun q => q.2)) := by
      rw [hmap, List.map_map, List.map_map]
      exact rfl
    have hne2 : ((rawCategoryWeights preferences).map fun q => q.2) ≠ [] := by
      simpa using hne
    rw [hvals, pyMax_map_div _ _ hne2 hpos, div_self (ne_of_gt hpos)]

/-- Preference record with the raw category totals {A: 10, B: 5, C: 20} of
the spec scenario. -/
def prefABC : PreferenceRecord := ⟨"u1", [("A", 10), ("B", 5), ("C", 20)], 0⟩

/-- Witness for (amended) C3 at raw totals {A: 10, B: 5, C: 20}: the
normalized weights are {A: 0.5, B: 0.25, C: 1.0}. -/
theorem category_weights_normalization_witness :
    rawCategoryWeights [prefABC] ≠ [] ∧
    0 < pyMax ((rawCategoryWeights [prefABC]).map fun p => p.2) ∧
    (buildCategoryWeights [prefABC]
        = (rawCategoryWeights [prefABC]).map
            (fun p => (p.1, p.2 / pyMax ((rawCategoryWeights [prefABC]).map fun q => q.2))) ∧
      pyMax ((buildCategoryWeights [prefABC]).map fun p => p.2) = 1) ∧
    buildCategoryWeights [prefABC] = [("A", 1/2), ("B", 1/4), ("C", 1)] := by
  have hraw : rawCategoryWeights [prefABC] = [("A", 10), ("B", 5), ("C", 20)] := by
    simp [rawCategoryWeights, dictAdd, prefABC]
  have hne : rawCategoryWeights [prefABC] ≠ [] := by
    rw [hraw]; simp
  have hmx : pyMax ((rawCategoryWeights [prefABC]).map fun p => p.2) = 20 := by
    rw [hraw]
    simp only [List.map_cons, List.map_nil, pyMax, List.foldl_cons, List.foldl_nil]
    rw [max_eq_left (by norm_num : (5:ℚ) ≤ 10), max_eq_right (by norm_num : (10:ℚ) ≤ 20)]
  have hpos : 0 < pyMax ((rawCategoryWeights [prefABC]).map fun p => p.2) := by
    rw [hmx]; norm_num
  have hmain := (category_weights_normalization [prefABC]).2 hne hpos
  refine ⟨hne, hpos, hmain, ?_⟩
  rw [hmain.1, hmx, hraw]
  norm_num

/-- Single interaction of user u1 with article a1: 1 click, nothing else. -/
def interSingle : InteractionEvent := ⟨"u1", "a1", 1, 0, false, "news"⟩

/-- Single interaction of user u2 with article a2: 2 clicks, nothing else. -/
def interB : InteractionEvent := ⟨"u2", "a2", 2, 0, false, "news"⟩

theorem buildScores_single : buildScores [interSingle] [] = [(("u1", "a1"), 1)] := by
  norm_num [buildScores, dictAdd, interactionScore, interSingle]

theorem build_single : build_interaction_matrix [interSingle] [] = some ([[1]], ["u1"], ["a1"]) := by
  simp only [build_interaction_matrix, buildScores_single]
  norm_num [usersOf, articlesOf, sortStrings, insertSorted, matrixOf, getScore,
    List.filter_cons, List.dedup_cons_of_not_mem, List.dedup_nil]

theorem buildScores_two : buildScores [interSingle, interB] []
    = [(("u1", "a1"), 1), (("u2", "a2"), 2)] := by
  norm_num [buildScores, dictAdd, interactionScore, interSingle, interB]
  decide

theorem build_two_by_two : build_interaction_matrix [interSingle, interB] []
    = some ([[1, 0], [0, 2]], ["u1", "u2"], ["a1", "a2"]) := by
  have husers : usersOf [(("u1", "a1"), (1 : ℚ)), (("u2", "a2"), 2)] = ["u1", "u2"] := by
    decide
  have harts : articlesOf [(("u1", "a1"), (1 : ℚ)), (("u2", "a2"), 2)] = ["a1", "a2"] := by
    decide
  have hmat : matrixOf [(("u1", "a1"), (1 : ℚ)), (("u2", "a2"), 2)] ["u1", "u2"] ["a1", "a2"]
      = [[1, 0], [0, 2]] := by
    simp [matrixOf, getScore, List.filter_cons]
  simp only [build_interaction_matrix, buildScores_two]
  rw [if_neg (by simp : ¬ ([(("u1", "a1"), (1 : ℚ)), (("u2", "a2"), 2)] = [])),
    husers, harts, hmat]

/-- Counterexample for C4: from the non-empty score map {(u1, a1): 1} the
Matrix Builder produces a 1-user, 1-article matrix, for which the clamped
rank is 1 while min(num_users, num_items) - 1 = 0, so the invariant
R <= min(num_users, num_items) - 1 fails. -/
theorem rank_bound_fails_on_one_by_one :
    build_interaction_matrix [interSingle] [] = some ([[1]], ["u1"], ["a1"]) ∧
    effectiveRank N_COMPONENTS (["u1"] : List String).length (["a1"] : List String).length = 1 ∧
    ¬ (effectiveRank N_COMPONENTS (["u1"] : List String).length (["a1"] : List String).length
         ≤ min (((["u1"] : List String).length : ℤ)) (((["a1"] : List String).length : ℤ)) - 1) :=
  ⟨build_single, by decide, by decide⟩

/-- C4 (amended): for every matrix the Matrix Builder produces from a
non-empty score map, the clamped rank R satisfies R >= 1, and the upper
bound R <= min(num_users, num_items) - 1 holds whenever
min(num_users, num_items) >= 2; a 1-row or 1-column matrix instead gets the
clamped rank 1, which exceeds min - 1 = 0. -/
theorem effective_rank_bounds
    (interactions : List InteractionEvent) (bookmarks : List BookmarkEvent)
    (matrix : List (List ℚ)) (user_ids article_ids : List String)
    (hbuild : build_interaction_matrix interactions bookmarks
        = some (matrix, user_ids, article_ids)) :
    1 ≤ effectiveRank N_COMPONENTS user_ids.length article_ids.length ∧
    (2 ≤ min user_ids.length article_ids.length →
       effectiveRank N_COMPONENTS user_ids.length article_ids.length
         ≤ min (user_ids.length : ℤ) (article_ids.length : ℤ) - 1) := by
  constructor
  · simp only [effectiveRank]
    split <;> omega
  · intro h
    have h2 : (2 : ℤ) ≤ min (user_ids.length : ℤ) (article_ids.length : ℤ) := by
      have := h
      omega
    simp only [effectiveRank]
    split <;> omega

/-- Witness for (amended) C4 on a 2-user, 2-article matrix. -/
theorem effective_rank_bounds_witness :
    build_interaction_matrix [interSingle, interB] []
      = some ([[1, 0], [0, 2]], ["u1", "u2"], ["a1", "a2"]) ∧
    2 ≤ min (["u1", "u2"] : List String).length (["a1", "a2"] : List String).length ∧
    (1 ≤ effectiveRank N_COMPONENTS (["u1", "u2"] : List String).length
           (["a1", "a2"] : List String).length ∧
     effectiveRank N_COMPONENTS (["u1", "u2"] : List String).length
         (["a1", "a2"] : List String).length
       ≤ min (((["u1", "u2"] : List String).length : ℤ))
           (((["a1", "a2"] : List String).length : ℤ)) - 1) :=
  ⟨build_two_by_two, by decide,
   (effective_rank_bounds _ _ _ _ _ build_two_by_two).1,
   (effective_rank_bounds _ _ _ _ _ build_two_by_two).2 (by decide)⟩

/-! ### Lemmas about the sorted-unique axis derivation -/

theorem insertSorted_perm (x : String) (l : List String) : (insertSorted x l).Perm (x :: l) := by
  induction l with
  | nil => exact List.Perm.refl _
  | cons y ys ih =>
    rw [insertSorted]
    by_cases h : strLe x y = true
    · rw [if_pos h]
    · rw [if_neg h]
      exact (ih.cons y).trans (List.Perm.swap x y ys)

theorem sortStrings_perm (l : List String) : (sortStrings l).Perm l := by
  induction l with
  | nil => exact List.Perm.refl _
  | cons x xs ih => exact (insertSorted_perm x (sortStrings xs)).trans (ih.cons x)

theorem sortStrings_nodup (l : List String) (h : l.Nodup) : (sortStrings l).Nodup :=
  (sortStrings_perm l).nodup_iff.mpr h

theorem mem_sortStrings {a : String} {l : List String} : a ∈ sortStrings l ↔ a ∈ l :=
  (sortStrings_perm l).mem_iff

theorem usersOf_nodup (s : List ((String × String) × ℚ)) : (usersOf s).Nodup :=
  sortStrings_nodup _ (List.nodup_dedup _)

theorem articlesOf_nodup (s : List ((String × String) × ℚ)) : (articlesOf s).Nodup :=
  sortStrings_nodup _ (List.nodup_dedup _)

theorem mem_usersOf {s : List ((String × String) × ℚ)} {p : (String × String) × ℚ}
    (hp : p ∈ s) : p.1.1 ∈ usersOf s :=
  mem_sortStrings.mpr (List.mem_dedup.mpr (List.mem_map_of_mem _ hp))

theorem mem_articlesOf {s : List ((String × String) × ℚ)} {p : (String × String) × ℚ}
    (hp : p ∈ s) : p.1.2 ∈ articlesOf s :=
  mem_sortStrings.mpr (List.mem_dedup.mpr (List.mem_map_of_mem _ hp))

/-! ### Summation lemmas for the dense matrix -/

theorem sum_map_add {α : Type} (l : List α) (f g : α → ℚ) :
    (l.map fun a => f a + g a).sum = (l.map f).sum + (l.map g).sum := by
  induction l with
  | nil => simp
  | cons x xs ih =>
    simp only [List.map_cons, List.sum_cons, ih]
    ring

theorem sum_map_ite_eq (l : List String) (x : String) (c : ℚ) (hl : l.Nodup) (hx : x ∈ l) :
    (l.map fun y => if x = y then c else 0).sum = c := by
  induction l with
  | nil => cases hx
  | cons z zs ih =>
    rw [List.nodup_cons] at hl
    rcases List.mem_cons.mp hx with h | h
    · subst h
      simp only [List.map_cons, List.sum_cons, if_pos rfl]
      have hz : (zs.map fun y => if x = y then c else 0).sum = 0 := by
        apply List.sum_eq_zero
        intro v hv
        rcases List.mem_map.mp hv with ⟨y, hy, rfl⟩
        rw [if_neg]
        intro he
        exact hl.1 (he ▸ hy)
      rw [hz, add_zero, if_pos trivial]
    · have hzx : ¬ (x = z) := fun he => hl.1 (he ▸ h)
      simp only [List.map_cons, List.sum_cons, if_neg hzx, zero_add]
      exact ih hl.2 h

theorem matrix_sum_rows (m : List ((String × String) × ℚ)) (us as_ : List String) :
    ((matrixOf m us as_).map List.sum).sum
      = (us.map fun u => (as_.map fun a => getScore m (u, a)).sum).sum := by
  rw [matrixOf, List.map_map]
  rfl

theorem sum_matrix_cells (m : List ((String × String) × ℚ)) (us as_ : List String)
    (hus : us.Nodup) (has : as_.Nodup)
    (hcov : ∀ p ∈ m, p.1.1 ∈ us ∧ p.1.2 ∈ as_) :
    ((matrixOf m us as_).map List.sum).sum = (m.map fun p => p.2).sum := by
  induction m with
  | nil =>
    rw [matrix_sum_rows]
    simp [getScore]
  | cons p ps ih =>
    rw [matrix_sum_rows]
    simp only [getScore_cons, sum_map_add]
    have hp := hcov p (List.mem_cons_self p ps)
    have hinner : ∀ u, (as_.map fun a => if p.1 = (u, a) then p.2 else 0).sum
        = if p.1.1 = u then p.2 else 0 := by
      intro u
      by_cases hu : p.1.1 = u
      · rw [if_pos hu]
        have hcond : (fun a => if p.1 = (u, a) then p.2 else 0)
            = fun a => if p.1.2 = a then p.2 else 0 := by
          funext a
          by_cases ha : p.1.2 = a
          · rw [if_pos ha, if_pos (Prod.ext hu ha)]
          · rw [if_neg ha, if_neg (fun he => ha (congrArg Prod.snd he))]
        rw [hcond]
        exact sum_map_ite_eq as_ p.1.2 p.2 has hp.2
      · rw [if_neg hu]
        apply List.sum_eq_zero
        intro v hv
        rcases List.mem_map.mp hv with ⟨a, ha, rfl⟩
        rw [if_neg]
        intro he
        exact hu (congrArg Prod.fst he)
    simp only [hinner]
    have hih : (us.map fun u => (as_.map fun a => getScore ps (u, a)).sum).sum
        = (ps.map fun p => p.2).sum := by
      rw [← matrix_sum_rows]
      exact ih (fun q hq => hcov q (List.mem_cons_of_mem p hq))
    rw [hih, sum_map_ite_eq us p.1.1 p.2 hus hp.1, List.map_cons, List.sum_cons]

/-- C6: for every score map, the sum of all cells of the built matrix equals
the sum of all score values, and every cell whose (user, article) pair is
not a key of the score map holds exactly 0 (the `fill_value=0` of the
pivot). -/
theorem matrix_sum_and_zero_fill
    (interactions : List InteractionEvent) (bookmarks : List BookmarkEvent)
    (hne : buildScores interactions bookmarks ≠ []) :
    build_interaction_matrix interactions bookmarks
      = some (matrixOf (buildScores interactions bookmarks)
                (usersOf (buildScores interactions bookmarks))
                (articlesOf (buildScores interactions bookmarks)),
              usersOf (buildScores interactions bookmarks),
              articlesOf (buildScores interactions bookmarks)) ∧
    ((matrixOf (buildScores interactions bookmarks)
        (usersOf (buildScores interactions bookmarks))
        (articlesOf (buildScores interactions bookmarks))).map List.sum).sum
      = ((buildScores interactions bookmarks).map fun p => p.2).sum ∧
    ∀ u a, (u, a) ∉ (buildScores interactions bookmarks).map (fun p => p.1) →
      getScore (buildScores interactions bookmarks) (u, a) = 0 := by
  refine ⟨?_, ?_, ?_⟩
  · simp only [build_interaction_matrix, if_neg hne]
  · exact sum_matrix_cells _ _ _ (usersOf_nodup _) (articlesOf_nodup _)
      (fun p hp => ⟨mem_usersOf hp, mem_articlesOf hp⟩)
  · intro u a h
    exact getScore_eq_zero _ _ h

/-- Witness for C6 on the two-interaction input: the total matrix mass
equals the total score mass, and the unobserved cell (u1, a2) is 0. -/
theorem matrix_sum_and_zero_fill_witness :
    buildScores [interSingle, interB] [] ≠ [] ∧
    ((matrixOf (buildScores [interSingle, interB] [])
        (usersOf (buildScores [interSingle, interB] []))
        (articlesOf (buildScores [interSingle, interB] []))).map List.sum).sum
      = ((buildScores [interSingle, interB] []).map fun p => p.2).sum ∧
    ("u1", "a2") ∉ (buildScores [interSingle, interB] []).map (fun p => p.1) ∧
    getScore (buildScores [interSingle, interB] []) ("u1", "a2") = 0 := by
  have hne : buildScores [interSingle, interB] [] ≠ [] := by
    rw [buildScores_two]
    simp
  have hout : ("u1", "a2") ∉ (buildScores [interSingle, interB] []).map (fun p => p.1) := by
    rw [buildScores_two]
    decide
  exact ⟨hne, (matrix_sum_and_zero_fill [interSingle, interB] [] hne).2.1, hout,
    (matrix_sum_and_zero_fill [interSingle, interB] [] hne).2.2 "u1" "a2" hout⟩

/-- C5: trainingStats.totalInteractions of the built artifact equals the sum
over users of the length of that user factor row, which is
num_users x rank for fixed-width rows (the legacy definition, not a count
of raw events). -/
theorem total_interactions_stat
    (user_ids article_ids : List String) (user_factors article_factors : List (List ℚ))
    (n : ℤ) (preferences : List PreferenceRecord) (r : ℕ)
    (hrows : ∀ row ∈ user_factors, row.length = r)
    (hlen : user_factors.length = user_ids.length) :
    (build_model_artifacts user_ids article_ids user_factors article_factors n
        preferences).totalInteractions = (user_factors.map List.length).sum ∧
    (build_model_artifacts user_ids article_ids user_factors article_factors n
        preferences).totalInteractions = user_ids.length * r := by
  refine ⟨rfl, ?_⟩
  show (user_factors.map List.length).sum = user_ids.length * r
  have h1 : ∀ x ∈ user_factors.map List.length, x = r := by
    intro x hx
    rcases List.mem_map.mp hx with ⟨row, hrow, rfl⟩
    exact hrows row hrow
  rw [List.sum_eq_card_nsmul _ _ h1, List.length_map, hlen, smul_eq_mul]

/-- Witness for C5: two users with rank-1 factor rows give
totalInteractions = 2 * 1 = 2. -/
theorem total_interactions_stat_witness :
    (∀ row ∈ [[(1 : ℚ)], [2]], row.length = 1) ∧
    ([[(1 : ℚ)], [2]] : List (List ℚ)).length = (["u1", "u2"] : List String).length ∧
    (build_model_artifacts ["u1", "u2"] ["a1", "a2"] [[(1 : ℚ)], [2]] [[(3 : ℚ)], [4]] 1
        []).totalInteractions = ([[(1 : ℚ)], [2]].map List.length).sum ∧
    (build_model_artifacts ["u1", "u2"] ["a1", "a2"] [[(1 : ℚ)], [2]] [[(3 : ℚ)], [4]] 1
        []).totalInteractions = (["u1", "u2"] : List String).length * 1 := by
  have hrows : ∀ row ∈ [[(1 : ℚ)], [2]], row.length = 1 := by
    intro row hr
    fin_cases hr <;> rfl
  have hlen : ([[(1 : ℚ)], [2]] : List (List ℚ)).length = (["u1", "u2"] : List String).length := rfl
  exact ⟨hrows, hlen,
    (total_interactions_stat ["u1", "u2"] ["a1", "a2"] [[(1 : ℚ)], [2]] [[(3 : ℚ)], [4]] 1 [] 1
      hrows hlen).1,
    (total_interactions_stat ["u1", "u2"] ["a1", "a2"] [[(1 : ℚ)], [2]] [[(3 : ℚ)], [4]] 1 [] 1
      hrows hlen).2⟩

/-! ### Indexing lemmas -/

theorem getD_map {α β : Type} (f : α → β) (l : List α) (i : ℕ) (h : i < l.length)
    (d : α) (d2 : β) : (l.map f).getD i d2 = f (l.getD i d) := by
  rw [List.getD_eq_getElem l d h, List.getD_eq_getElem (l.map f) d2 (by simpa using h),
    List.getElem_map]

theorem getD_zip {α β : Type} (l : List α) (l2 : List β) (i : ℕ)
    (h1 : i < l.length) (h2 : i < l2.length) (d : α) (d2 : β) :
    (l.zip l2).getD i (d, d2) = (l.getD i d, l2.getD i d2) := by
  have hz : i < (l.zip l2).length := by
    rw [List.length_zip]
    exact lt_min h1 h2
  rw [List.getD_eq_getElem _ _ hz, List.getD_eq_getElem _ _ h1, List.getD_eq_getElem _ _ h2,
    List.getElem_zip]

/-- C9: the user ordering returned by the Matrix Builder is exactly the
ordering used to index userFactors in the artifact: row i of the matrix is
the score row of user_ids[i], entry i of userFactors pairs user_ids[i] with
factor row i, and analogously for articles. -/
theorem factor_ordering_consistent
    (interactions : List InteractionEvent) (bookmarks : List BookmarkEvent)
    (preferences : List PreferenceRecord)
    (matrix : List (List ℚ)) (user_ids article_ids : List String)
    (user_factors article_factors : List (List ℚ)) (n : ℤ)
    (hbuild : build_interaction_matrix interactions bookmarks
        = some (matrix, user_ids, article_ids))
    (huf : user_factors.length = user_ids.length)
    (haf : article_factors.length = article_ids.length) :
    (∀ i, i < user_ids.length →
       matrix.getD i []
           = article_ids.map
               (fun a => getScore (buildScores interactions bookmarks) (user_ids.getD i "", a)) ∧
       (build_model_artifacts user_ids article_ids user_factors article_factors n
           preferences).userFactors.getD i ("", [])
         = (user_ids.getD i "", user_factors.getD i [])) ∧
    ∀ j, j < article_ids.length →
      (build_model_artifacts user_ids article_ids user_factors article_factors n
          preferences).articleFactors.getD j ("", [])
        = (article_ids.getD j "", article_factors.getD j []) := by
  simp only [build_interaction_matrix] at hbuild
  by_cases hne : buildScores interactions bookmarks = []
  · rw [if_pos hne] at hbuild
    exact absurd hbuild (by simp)
  · rw [if_neg hne, Option.some.injEq, Prod.mk.injEq, Prod.mk.injEq] at hbuild
    obtain ⟨hm, hus, has⟩ := hbuild
    subst hm
    subst hus
    subst has
    refine ⟨?_, ?_⟩
    · intro i hi
      constructor
      · simp only [matrixOf]
        exact getD_map _ _ i hi "" []
      · simp only [build_model_artifacts]
        exact getD_zip _ user_factors i hi (by rw [huf]; exact hi) "" []
    · intro j hj
      simp only [build_model_artifacts]
      exact getD_zip _ article_factors j hj (by rw [haf]; exact hj) "" []

/-- Witness for C9 at the 2-user, 2-article input with rank-1 factor rows. -/
theorem factor_ordering_consistent_witness :
    build_interaction_matrix [interSingle, interB] []
      = some ([[1, 0], [0, 2]], ["u1", "u2"], ["a1", "a2"]) ∧
    (([[1, 0], [0, 2]] : List (List ℚ)).getD 0 []
        = ["a1", "a2"].map
            (fun a => getScore (buildScores [interSingle, interB] [])
              ((["u1", "u2"] : List String).getD 0 "", a)) ∧
     (build_model_artifacts ["u1", "u2"] ["a1", "a2"] [[(1 : ℚ)], [2]] [[(3 : ℚ)], [4]] 1
         []).userFactors.getD 0 ("", [])
       = ((["u1", "u2"] : List String).getD 0 "", ([[(1 : ℚ)], [2]] : List (List ℚ)).getD 0 [])) ∧
    (build_model_artifacts ["u1", "u2"] ["a1", "a2"] [[(1 : ℚ)], [2]] [[(3 : ℚ)], [4]] 1
        []).articleFactors.getD 0 ("", [])
      = ((["a1", "a2"] : List String).getD 0 "", ([[(3 : ℚ)], [4]] : List (List ℚ)).getD 0 []) := by
  have h := factor_ordering_consistent [interSingle, interB] [] [] [[1, 0], [0, 2]]
    ["u1", "u2"] ["a1", "a2"] [[(1 : ℚ)], [2]] [[(3 : ℚ)], [4]] 1 build_two_by_two rfl rfl
  exact ⟨build_two_by_two, h.1 0 (by decide), h.2 0 (by decide)⟩

/-- Trivial concrete stand-in for the SVD training step, used by witnesses. -/
def svd0 : SvdFun := fun _ _ => ([], [])

/-- C7: when the distinct-user count is below MIN_USERS or the interaction
count is below MIN_INTERACTIONS, `main` returns the success signal (exit
code 0) without building a matrix, training or publishing (the result does
not depend on the SVD step, and nothing is published). -/
theorem gate_skips_training
    (svd : SvdFun) (setResult : Except Unit Unit)
    (interactions : List InteractionEvent) (bookmarks : List BookmarkEvent)
    (preferences : List PreferenceRecord)
    (h : (interactions.map fun e => e.user_id).dedup.length < MIN_USERS ∨
         interactions.length < MIN_INTERACTIONS) :
    main_pipeline svd setResult interactions bookmarks preferences = (0, none) := by
  rcases h with h | h
  · simp [main_pipeline, h]
  · by_cases h2 : (interactions.map fun e => e.user_id).dedup.length < MIN_USERS
    · simp [main_pipeline, h2]
    · simp [main_pipeline, h2, h]

/-- Skip scenario interactions: one user with five interaction events. -/
def skipInters : List InteractionEvent :=
  [⟨"u1", "a1", 1, 0, false, "news"⟩, ⟨"u1", "a2", 1, 0, false, "news"⟩,
   ⟨"u1", "a3", 1, 0, false, "news"⟩, ⟨"u1", "a4", 1, 0, false, "news"⟩,
   ⟨"u1", "a5", 1, 0, false, "news"⟩]

/-- Witness for C7: one user with five interactions fails the user-count
threshold and the pipeline exits 0 with nothing published. -/
theorem gate_skips_training_witness :
    ((skipInters.map fun e => e.user_id).dedup.length < MIN_USERS ∨
       skipInters.length < MIN_INTERACTIONS) ∧
    main_pipeline svd0 (Except.ok ()) skipInters [] [] = (0, none) := by
  have h : (skipInters.map fun e => e.user_id).dedup.length < MIN_USERS ∨
      skipInters.length < MIN_INTERACTIONS := Or.inl (by decide)
  exact ⟨h, gate_skips_training svd0 (Except.ok ()) skipInters [] [] h⟩

/-- C8: when the merged score map is empty at matrix-build time, the Matrix
Builder returns the null result and the post-gate pipeline exits 1 without
training or publishing. -/
theorem empty_scores_short_circuit
    (svd : SvdFun) (setResult : Except Unit Unit)
    (interactions : List InteractionEvent) (bookmarks : List BookmarkEvent)
    (preferences : List PreferenceRecord)
    (h : buildScores interactions bookmarks = []) :
    build_interaction_matrix interactions bookmarks = none ∧
    pipelinePostGate svd setResult interactions bookmarks preferences = (1, none) := by
  have h1 : build_interaction_matrix interactions bookmarks = none := by
    simp [build_interaction_matrix, h]
  exact ⟨h1, by simp [pipelinePostGate, h1]⟩

/-- Witness for C8 at the empty input. -/
theorem empty_scores_short_circuit_witness :
    buildScores [] [] = [] ∧
    build_interaction_matrix [] [] = none ∧
    pipelinePostGate svd0 (Except.ok ()) [] [] [] = (1, none) := by
  have h : buildScores [] [] = [] := rfl
  exact ⟨h, (empty_scores_short_circuit svd0 (Except.ok ()) [] [] [] h).1,
    (empty_scores_short_circuit svd0 (Except.ok ()) [] [] [] h).2⟩

/-- C10: the upload step returns the success value whenever the external
write returns at all, so the only way the post-gate pipeline reports
failure after a matrix was built is an exception from the external write;
the explicit failed-upload branch of `main` is unreachable. -/
theorem upload_never_reports_failure :
    (∀ (setResult : Except Unit Unit) (b : Bool),
        upload_model_to_firestore setResult = Except.ok b → b = true) ∧
    (∀ (svd : SvdFun) (setResult : Except Unit Unit)
        (interactions : List InteractionEvent) (bookmarks : List BookmarkEvent)
        (preferences : List PreferenceRecord),
        build_interaction_matrix interactions bookmarks ≠ none →
        (pipelinePostGate svd setResult interactions bookmarks preferences).1 = 1 →
        setResult = Except.error ()) := by
  constructor
  · intro s b h
    cases s with
    | error e => simp [upload_model_to_firestore, Except.map] at h
    | ok u =>
      simp [upload_model_to_firestore, Except.map] at h
      exact h
  · intro svd s inters bms prefs hne h1
    cases hb : build_interaction_matrix inters bms with
    | none => exact absurd hb hne
    | some t =>
      obtain ⟨mat, rest⟩ := t
      obtain ⟨uids, aids⟩ := rest
      cases s with
      | error e => cases e; rfl
      | ok u =>
        exfalso
        simp [pipelinePostGate, hb, upload_model_to_firestore, Except.map] at h1

/-- Witness for C10: with a buildable matrix and a failing external write,
the pipeline exits 1 and the failure indeed came from the exception path. -/
theorem upload_never_reports_failure_witness :
    build_interaction_matrix [interSingle] [] ≠ none ∧
    (pipelinePostGate svd0 (Except.error ()) [interSingle] [] []).1 = 1 ∧
    (Except.error () : Except Unit Unit) = Except.error () := by
  have hne : build_interaction_matrix [interSingle] [] ≠ none := by
    rw [build_single]
    simp
  have h1 : (pipelinePostGate svd0 (Except.error ()) [interSingle] [] []).1 = 1 := by
    simp [pipelinePostGate, build_single, upload_model_to_firestore, Except.map]
  exact ⟨hne, h1,
    upload_never_reports_failure.2 svd0 (Except.error ()) [interSingle] [] [] hne h1⟩
